import Mathlib

/-!
Verification of the Context Resolution & Build Planning Engine
(`src/tools/projmgr/src/ProjMgr.cpp`) against its specification.

The source file under `src/` is the orchestration layer `ProjMgr.cpp`.
Functions of `ProjMgrWorker`, `ProjMgrParser` and the YAML emitter are
external to the provided sources; where a claim depends on them they are
either treated as oracle parameters (the outcome of `ProcessContext`,
`IsContextSelected`) or modelled from the spec, as marked in doc comments.

Context names are modelled as lists of characters, command events as an
explicit trace, and the `Configure` loop as a structurally recursive
function over the ordered context list, mirroring the C++ control flow.
-/

/-- A textual name (context name, file name, directory): a list of characters. -/
abbrev Name := List Char

/-- Modelled from the spec: the `ContextIdentifier` of §3 / §4.1 (the
Identifier Algebra lives in `ProjMgrWorker`/`ProjMgrUtils`, which are not
under `src/`). `project[.buildType][+targetType]`; an absent axis is a
wildcard. -/
structure ContextName where
  project : List Char
  buildType : Option (List Char)
  targetType : Option (List Char)
deriving DecidableEq, Repr

/-- Modelled from the spec: a grammar `name` is non-empty and contains no
dot, no plus and no whitespace (§4.1). -/
def validPart (s : List Char) : Bool :=
  !s.isEmpty && s.all (fun c => !(c == '.') && !(c == '+') && !c.isWhitespace)

/-- Modelled from the spec: an identifier all of whose present parts are
grammar names. -/
def validIdent (i : ContextName) : Bool :=
  validPart i.project &&
  (match i.buildType with | none => true | some b => validPart b) &&
  (match i.targetType with | none => true | some t => validPart t)

/-- Modelled from the spec: `format(ContextIdentifier) -> string`, the
canonical reconstruction `project[.buildType][+targetType]` (§4.1). -/
def formatIdent (i : ContextName) : List Char :=
  i.project ++ (match i.buildType with | none => [] | some b => '.' :: b)
            ++ (match i.targetType with | none => [] | some t => '+' :: t)

/-- Split a character list at the first occurrence of `sep`: the part
before it, and `some` the part after it (or `none` if `sep` is absent). -/
def splitFirst (sep : Char) : List Char → List Char × Option (List Char)
  | [] => ([], none)
  | c :: rest =>
    if c = sep then ([], some rest)
    else
      ((splitFirst sep rest).1.cons c, (splitFirst sep rest).2)

/-- Modelled from the spec: `parse(text) -> ContextIdentifier | ParseError`
(§4.1). The target-type suffix is cut at the first `+`, the build-type at
the first `.` of the remainder; the parts must be grammar names. -/
def parseIdent (s : List Char) : Option ContextName :=
  let pPlus := splitFirst '+' s
  let pDot := splitFirst '.' pPlus.1
  let i : ContextName := ⟨pDot.1, pDot.2, pPlus.2⟩
  if validIdent i then some i else none

/-- A textual identifier is well-formed when it is produced by the grammar
`name[.name][+name]`, i.e. it is the canonical form of some identifier all
of whose parts are valid grammar names. -/
def wellFormed (s : List Char) : Prop :=
  ∃ i : ContextName, validIdent i = true ∧ formatIdent i = s

/-- Modelled from the spec: `matches(pattern, concrete)` (§4.1): each
non-empty pattern field must equal the concrete field; empty (or absent)
pattern fields match anything. -/
def matchesIdent (pat concrete : ContextName) : Bool :=
  (pat.project.isEmpty || pat.project == concrete.project) &&
  (match pat.buildType with
   | none => true
   | some b => b.isEmpty || concrete.buildType == some b) &&
  (match pat.targetType with
   | none => true
   | some t => t.isEmpty || concrete.targetType == some t)

/-- Modelled from the spec: whether a pattern matches a concrete textual
context name (the concrete name is parsed, then matched field-wise). -/
def matchesContextName (pat : ContextName) (c : Name) : Bool :=
  match parseIdent c with
  | some id => matchesIdent pat id
  | none => false

/-- Modelled from the spec (§4.2): a context is selected when it matches at
least one of the user-supplied patterns. -/
def selectedByPatterns (pats : List ContextName) (c : Name) : Bool :=
  pats.any (fun p => matchesContextName p c)

/-- Modelled from the spec (§4.2): the "missing filter" diagnostics
collected during selection — the patterns matching zero contexts. -/
def computeMissingFilters (pats : List ContextName) (ordered : List Name) : List ContextName :=
  pats.filter (fun p => !(ordered.any (fun c => matchesContextName p c)))

/-- Observable side effects of a run, recorded as a trace. -/
inductive Event where
  | processContext (name : Name) (ok : Bool)
  | printMissingFilters (missing : List ContextName)
  | generateCbuildPack
  | generateCbuildIndex (contexts : List Name)
  | generateCbuildSet (contexts : List Name)
  | warnCbuildSetMissing
  | generateCbuild (name : Name) (convError : Bool)
  | generateCprj (name : Name)
deriving DecidableEq, Repr

/-- Recogniser for the missing-filter report event. -/
def isPrintMissingFilters : Event → Bool
  | Event.printMissingFilters _ => true
  | _ => false

/-- The state mutated by `ProjMgr::Configure`: `m_allContexts`,
`m_processedContexts`, `m_failedContext`, the local `error` flag, and the
trace of observable effects. -/
structure ConfigureState where
  allContexts : List Name
  processedContexts : List Name
  failedContext : List Name
  error : Bool
  trace : List Event
deriving DecidableEq, Repr

/-- The worker-side inputs to `Configure`, treated as oracles: the ordered
context list (`GetYmlOrderedContexts`), the selection predicate
(`IsContextSelected`), the outcome of `ProcessContext` per context, and the
missing-filter diagnostics collected during selection. -/
structure Worker where
  orderedContexts : List Name
  selected : Name → Bool
  processOk : Name → Bool
  missingFilters : List ContextName

/-- The initial configure state (`Configure` clears all three lists). -/
def initConfigureState : ConfigureState :=
  { allContexts := [], processedContexts := [], failedContext := [],
    error := false, trace := [] }

/-- The context-processing loop of `ProjMgr::Configure` (ProjMgr.cpp,
lines 550-562): every context is appended to `m_allContexts`; unselected
contexts are skipped; a selected context is processed, on failure its name
is inserted into `m_failedContext` and the error flag is raised, and in
every case it is appended to `m_processedContexts`. The loop never exits
early. -/
def configureLoop (sel ok : Name → Bool) : List Name → ConfigureState → ConfigureState
  | [], st => st
  | c :: rest, st =>
    if sel c then
      configureLoop sel ok rest
        { allContexts := st.allContexts ++ [c],
          processedContexts := st.processedContexts ++ [c],
          failedContext := if ok c then st.failedContext else st.failedContext ++ [c],
          error := st.error || !ok c,
          trace := st.trace ++ [Event.processContext c (ok c)] }
    else
      configureLoop sel ok rest { st with allContexts := st.allContexts ++ [c] }

/-- `ProjMgr::Configure` after a successful context selection (ProjMgr.cpp,
lines 546-581): run the loop over the ordered context list, then print the
missing-filter warnings once, and return `!error`. -/
def configure (w : Worker) : ConfigureState × Bool :=
  let st := configureLoop w.selected w.processOk w.orderedContexts initConfigureState
  let st2 := { st with trace := st.trace ++ [Event.printMissingFilters w.missingFilters] }
  (st2, !st2.error)

/-- The worker induced by a list of user-supplied context patterns: the
selection predicate and the collected missing-filter diagnostics. -/
def workerFromPatterns (ordered : List Name) (pats : List ContextName)
    (ok : Name → Bool) : Worker :=
  { orderedContexts := ordered,
    selected := selectedByPatterns pats,
    processOk := ok,
    missingFilters := computeMissingFilters pats ordered }

/-- The closed set of pack-loading policies (`LoadPacksPolicy` used by
`ProjMgr::SetLoadPacksPolicy`). -/
inductive LoadPacksPolicy where
  | DEFAULT
  | LATEST
  | ALL
  | REQUIRED
deriving DecidableEq, Repr

/-- `ProjMgr::SetLoadPacksPolicy` (ProjMgr.cpp, lines 395-409): an empty
option selects DEFAULT; "latest", "all", "required" select LATEST, ALL,
REQUIRED; any other string is an error (`none`). -/
def setLoadPacksPolicy (opt : String) : Option LoadPacksPolicy :=
  if opt = "" then some LoadPacksPolicy.DEFAULT
  else if opt = "latest" then some LoadPacksPolicy.LATEST
  else if opt = "all" then some LoadPacksPolicy.ALL
  else if opt = "required" then some LoadPacksPolicy.REQUIRED
  else none

/-- The run pipeline around the load-policy check: `ParseCommandLine` ends
by calling `SetLoadPacksPolicy` and returns an error code on failure
(ProjMgr.cpp, lines 281-285), and `RunProjMgr` only proceeds to command
processing — and hence to any context processing — when `ParseCommandLine`
returned success (lines 292-296). -/
def runWithLoadOption (opt : String) (w : Worker) : Bool × List Event :=
  match setLoadPacksPolicy opt with
  | none => (false, [])
  | some _ =>
    let r := configure w
    (r.2, r.1.trace)

/-- Inputs of `ProjMgr::RunListLayers`: the outcome and output of the
worker's `ListLayers` (external), the `--update-idx` flag, and the ordered
context list used to fill `m_allContexts` in update-index mode. -/
structure LayersInput where
  listLayersOk : Bool
  layers : List Name
  updateIdx : Bool
  orderedContexts : List Name

/-- Observable outcome of `ProjMgr::RunListLayers`: the layers printed and
whether the cbuild-idx artifact was regenerated. -/
structure LayersOutput where
  ok : Bool
  printed : List Name
  indexGenerated : Bool
deriving DecidableEq, Repr

/-- `ProjMgr::RunListLayers` (ProjMgr.cpp, lines 796-838): on `ListLayers`
failure return false without printing or persisting; otherwise print every
layer only when `--update-idx` is not set, and regenerate the cbuild-idx
file (over all ordered contexts) only when `--update-idx` is set and the
context list is non-empty. -/
def runListLayers (i : LayersInput) : LayersOutput :=
  if !i.listLayersOk then { ok := false, printed := [], indexGenerated := false }
  else
    { ok := true,
      printed := if !i.updateIdx then i.layers else [],
      indexGenerated := i.updateIdx && !i.orderedContexts.isEmpty }

/-- Result of context selection: success flag, the selected contexts, and
whether the missing-context-set warning was emitted. -/
structure SelectionResult where
  ok : Bool
  selectedContexts : List Name
  warnedMissingSet : Bool
deriving DecidableEq, Repr

/-- Modelled from the spec: `ProjMgrWorker::ParseContextSelection` is not
under `src/`. Per §4.2: when a context set is to be used but the persisted
set file is absent (and no explicit patterns were given, which is exactly
when `Configure` asks for the set, line 533), warn and fall back to
selecting all contexts, never hard-failing; with no patterns select all
contexts in declaration order; with patterns select every context matching
at least one pattern, in declaration order. -/
def parseContextSelection (allContexts : List Name) (pats : List ContextName)
    (checkCbuildSet cbuildSetExists : Bool) (savedSet : List Name) : SelectionResult :=
  if checkCbuildSet then
    if !cbuildSetExists then
      { ok := true, selectedContexts := allContexts, warnedMissingSet := true }
    else
      { ok := true,
        selectedContexts := allContexts.filter (fun c => savedSet.contains c),
        warnedMissingSet := false }
  else if pats.isEmpty then
    { ok := true, selectedContexts := allContexts, warnedMissingSet := false }
  else
    { ok := true,
      selectedContexts := allContexts.filter (selectedByPatterns pats),
      warnedMissingSet := false }

/-- The context selection as wired by `ProjMgr::Configure` (ProjMgr.cpp,
line 533): the context set is only consulted when the context-set mode is
on and no explicit `--context` patterns were given. -/
def configureSelection (allContexts : List Name) (pats : List ContextName)
    (contextSetMode cbuildSetExists : Bool) (savedSet : List Name) : SelectionResult :=
  parseContextSelection allContexts pats (pats.isEmpty && contextSetMode)
    cbuildSetExists savedSet

/-- `ProjMgr::GenerateYMLConfigurationFiles` (ProjMgr.cpp, lines 482-525):
emit the cbuild-pack file; emit the cbuild-idx file when there are
contexts; in context-set mode, warn when no patterns were given and the
cbuild-set file is absent, else emit the cbuild-set file when some context
was processed; finally emit one cbuild file per processed context, flagged
with a conversion error exactly when the context is in the failed set.
Emitter calls are external collaborators recorded as events. -/
def generateYMLConfigurationFiles (contextSetMode : Bool) (pats : List ContextName)
    (cbuildSetExists : Bool) (allCtx processed failed : List Name) : List Event × Bool :=
  let evPack := [Event.generateCbuildPack]
  let evIdx := if allCtx.isEmpty then [] else [Event.generateCbuildIndex allCtx]
  let evSet :=
    if contextSetMode then
      if pats.isEmpty && !cbuildSetExists then [Event.warnCbuildSetMissing]
      else if !processed.isEmpty then [Event.generateCbuildSet processed]
      else []
    else []
  let evBuild := processed.map (fun c => Event.generateCbuild c (failed.contains c))
  (evPack ++ evIdx ++ evSet ++ evBuild, true)

/-- `ProjMgr::RunConvert` (ProjMgr.cpp, lines 601-631): run `Configure`,
then — regardless of its outcome — generate the YML build configuration
files and a `.cprj` file for every processed context; the overall result
is the conjunction of the configure and generation outcomes. -/
def runConvert (w : Worker) (contextSetMode cbuildSetExists : Bool)
    (pats : List ContextName) : Bool × List Event :=
  let r := configure w
  let y := generateYMLConfigurationFiles contextSetMode pats cbuildSetExists
    r.1.allContexts r.1.processedContexts r.1.failedContext
  let evCprj := r.1.processedContexts.map (fun c => Event.generateCprj c)
  (r.2 && y.2, r.1.trace ++ y.1 ++ evCprj)

/-- One cproject reference of a csolution: its directory and its filename
(the source splits the path with `parent_path` and `filename`). -/
structure CprojectEntry where
  dir : Name
  filename : Name
deriving DecidableEq, Repr

/-- Whether a list contains some element twice (the source detects this by
inserting into a `multiset` and checking `adjacent_find` on the sorted
contents, which holds exactly when some element occurs at least twice). -/
def hasDup : List Name → Bool
  | [] => false
  | x :: xs => xs.contains x || hasDup xs

/-- Outcome of the cproject checks and context creation of
`ProjMgr::PopulateContexts`. -/
structure PopulateResult where
  ok : Bool
  errorUniqueNames : Bool
  warnSeparateDirs : Bool
  addedContexts : List Name
deriving DecidableEq, Repr

/-- The cproject uniqueness checks and context creation of
`ProjMgr::PopulateContexts` (ProjMgr.cpp, lines 423-474): with more than
one cproject, a duplicated filename is an error and the function returns
before any context is added; duplicated directories only produce a warning
and the run continues, adding every context descriptor. -/
def populateContexts (cprojects : List CprojectEntry) (descriptors : List Name) :
    PopulateResult :=
  if cprojects.length > 1 then
    if hasDup (cprojects.map (fun c => c.filename)) then
      { ok := false, errorUniqueNames := true, warnSeparateDirs := false,
        addedContexts := [] }
    else
      { ok := true, errorUniqueNames := false,
        warnSeparateDirs := hasDup (cprojects.map (fun c => c.dir)),
        addedContexts := descriptors }
  else
    { ok := true, errorUniqueNames := false, warnSeparateDirs := false,
      addedContexts := descriptors }

/-- Modelled from the spec: `ProjMgrWorker::ListContexts` (called by
`ProjMgr::RunListContexts` with the `--yml-order` flag, ProjMgr.cpp line
766) is not under `src/`. Per §4.2, the output ordering is the declaration
order, or, when yml-order mode is requested, the order contexts first
appeared in the original input rather than any derived sort order. -/
def listContexts (declarationOrdered ymlInputOrdered : List Name)
    (filt : Name → Bool) (ymlOrder : Bool) : List Name :=
  if ymlOrder then ymlInputOrdered.filter filt else declarationOrdered.filter filt

/-- A concrete example worker: two contexts A and B, both selected,
processing succeeds only for A. -/
def cw1 : Worker :=
  { orderedContexts := [['A'], ['B']],
    selected := fun _ => true,
    processOk := fun c => c == ['A'],
    missingFilters := [] }

/-- A concrete layer-listing input: one layer, update-index mode on, one
context. -/
def li1 : LayersInput :=
  { listLayersOk := true, layers := [['L']], updateIdx := true,
    orderedContexts := [['A']] }

/-- The concrete textual identifier `App.Debug+BoardA`. -/
def sampleText : List Char :=
  ['A', 'p', 'p', '.', 'D', 'e', 'b', 'u', 'g', '+', 'B', 'o', 'a', 'r', 'd', 'A']

theorem configureLoop_eq (sel ok : Name → Bool) (l : List Name) (st : ConfigureState) :
    configureLoop sel ok l st =
      { allContexts := st.allContexts ++ l,
        processedContexts := st.processedContexts ++ l.filter sel,
        failedContext := st.failedContext ++ l.filter (fun c => sel c && !ok c),
        error := st.error || l.any (fun c => sel c && !ok c),
        trace := st.trace ++ (l.filter sel).map (fun c => Event.processContext c (ok c)) } := by
  induction l generalizing st with
  | nil => simp [configureLoop]
  | cons c rest ih =>
    simp only [configureLoop]
    by_cases hsel : sel c = true
    · by_cases hok : ok c = true
      · rw [if_pos hsel, ih]
        simp [hsel, hok, List.filter_cons, List.any_cons]
      · rw [if_pos hsel, ih]
        simp only [Bool.not_eq_true] at hok
        simp [hsel, hok, List.filter_cons, List.any_cons]
    · simp only [Bool.not_eq_true] at hsel
      rw [if_neg (by simp [hsel]), ih]
      simp [hsel, List.filter_cons, List.any_cons]

/-- C1: the Resolution Run (`Configure`) reports overall success if and
only if every selected context was processed to Succeeded, and the failure
set holds exactly the identifiers of the selected contexts whose
processing failed. -/
theorem configure_success_iff (w : Worker) :
    ((configure w).2 = true ↔
      ∀ c ∈ w.orderedContexts, w.selected c = true → w.processOk c = true) ∧
    (∀ c, c ∈ (configure w).1.failedContext ↔
      c ∈ w.orderedContexts ∧ w.selected c = true ∧ w.processOk c = false) := by
  constructor
  · simp [configure, configureLoop_eq, initConfigureState, List.any_eq_true]
  · intro c
    simp [configure, configureLoop_eq, initConfigureState, List.mem_filter]

/-- C2: the resolution loop records every failing context name in the
failure set and never short-circuits: the full context list is exposed
(`m_allContexts` equals the ordered input), the processed list is exactly
the selected sublist in order (so failed contexts remain in it with their
partial resolution), and every failed context is still exposed among the
processed contexts. -/
theorem configure_failure_isolation (w : Worker) :
    (configure w).1.allContexts = w.orderedContexts ∧
    (configure w).1.processedContexts = w.orderedContexts.filter w.selected ∧
    (configure w).1.failedContext =
      w.orderedContexts.filter (fun c => w.selected c && !w.processOk c) ∧
    ∀ c ∈ (configure w).1.failedContext, c ∈ (configure w).1.processedContexts := by
  refine ⟨by simp [configure, configureLoop_eq, initConfigureState],
    by simp [configure, configureLoop_eq, initConfigureState],
    by simp [configure, configureLoop_eq, initConfigureState], ?_⟩
  intro c hc
  simp [configure, configureLoop_eq, initConfigureState, List.mem_filter] at hc ⊢
  exact ⟨hc.1, hc.2.1⟩

/-- C3: `SetLoadPacksPolicy` maps the load option exhaustively onto the
closed policy set — empty yields DEFAULT, "latest"/"all"/"required" yield
LATEST/ALL/REQUIRED — and for every other string it reports an error and
the run aborts before any context is processed (the pipeline returns
failure with an empty trace). -/
theorem setLoadPacksPolicy_exhaustive :
    setLoadPacksPolicy "" = some LoadPacksPolicy.DEFAULT ∧
    setLoadPacksPolicy "latest" = some LoadPacksPolicy.LATEST ∧
    setLoadPacksPolicy "all" = some LoadPacksPolicy.ALL ∧
    setLoadPacksPolicy "required" = some LoadPacksPolicy.REQUIRED ∧
    ∀ opt : String, opt ≠ "" → opt ≠ "latest" → opt ≠ "all" → opt ≠ "required" →
      setLoadPacksPolicy opt = none ∧
      ∀ w : Worker, (runWithLoadOption opt w).1 = false ∧
        (runWithLoadOption opt w).2 = [] := by
  refine ⟨rfl, rfl, rfl, rfl, ?_⟩
  intro opt h1 h2 h3 h4
  have hn : setLoadPacksPolicy opt = none := by
    simp [setLoadPacksPolicy, h1, h2, h3, h4]
  exact ⟨hn, fun w => by simp [runWithLoadOption, hn]⟩

theorem any_eq_of_perm {α : Type} (f : α → Bool) {l1 l2 : List α} (h : l1.Perm l2) :
    l1.any f = l2.any f := by
  induction h with
  | nil => rfl
  | cons x _ ih => simp [List.any_cons, ih]
  | swap x y l => simp [List.any_cons, Bool.or_left_comm]
  | trans _ _ ih1 ih2 => rw [ih1, ih2]

/-- C4: for every set of selection patterns the selected contexts are
processed in the declaration order of the contexts (the processed list is
a filter of the ordered context list), never in the order of the patterns
(any permutation of the pattern list yields the identical processed list);
and in yml-order mode the context listing uses the order contexts first
appeared in the original input. -/
theorem selection_declaration_order (ordered : List Name) (pats pats2 : List ContextName)
    (ok : Name → Bool) (hperm : pats.Perm pats2) :
    (configure (workerFromPatterns ordered pats ok)).1.processedContexts =
      ordered.filter (selectedByPatterns pats) ∧
    (configure (workerFromPatterns ordered pats ok)).1.processedContexts =
      (configure (workerFromPatterns ordered pats2 ok)).1.processedContexts ∧
    (∀ (declOrdered ymlOrdered : List Name) (f : Name → Bool),
      listContexts declOrdered ymlOrdered f true = ymlOrdered.filter f) := by
  have hsel : ∀ c, selectedByPatterns pats c = selectedByPatterns pats2 c := by
    intro c; exact any_eq_of_perm _ hperm
  refine ⟨by simp [configure, configureLoop_eq, initConfigureState, workerFromPatterns],
    ?_, fun d y f => rfl⟩
  simp only [configure, configureLoop_eq, initConfigureState, workerFromPatterns,
    List.nil_append]
  exact List.filter_congr (fun a _ => hsel a)

/-- C5: in the layer-listing operation exactly one of two effects happens:
with update-index mode active no layer is printed and the build-index
artifact is regenerated (for the non-empty context list); with it inactive
every computed layer is printed and the build-index artifact is left
unchanged. -/
theorem runListLayers_update_idx (i : LayersInput) (h : i.listLayersOk = true) :
    (i.updateIdx = true →
      (runListLayers i).printed = [] ∧
      (i.orderedContexts ≠ [] → (runListLayers i).indexGenerated = true)) ∧
    (i.updateIdx = false →
      (runListLayers i).printed = i.layers ∧
      (runListLayers i).indexGenerated = false) := by
  constructor
  · intro hu
    refine ⟨by simp [runListLayers, h, hu], ?_⟩
    intro hne
    simp [runListLayers, h, hu, hne]
  · intro hu
    simp [runListLayers, h, hu]

/-- C6: when the context-set mode is requested, no explicit context
patterns are given and the persisted context-set file is absent, the
engine warns and falls back to selecting all contexts, and the
configuration-file generation also only warns — the run never hard-fails
from this situation. -/
theorem contextset_missing_fallback (allContexts savedSet : List Name)
    (cbuildSetExists : Bool) (processed failed : List Name)
    (h : cbuildSetExists = false) :
    (configureSelection allContexts [] true cbuildSetExists savedSet).ok = true ∧
    (configureSelection allContexts [] true cbuildSetExists savedSet).selectedContexts
      = allContexts ∧
    (configureSelection allContexts [] true cbuildSetExists savedSet).warnedMissingSet
      = true ∧
    (generateYMLConfigurationFiles true [] cbuildSetExists allContexts processed failed).2
      = true ∧
    Event.warnCbuildSetMissing ∈
      (generateYMLConfigurationFiles true [] cbuildSetExists allContexts processed failed).1 := by
  subst h
  refine ⟨rfl, rfl, rfl, rfl, ?_⟩
  simp [generateYMLConfigurationFiles]

/-- C7: a user pattern matching zero contexts is recorded as a non-fatal
missing-filter diagnostic, reported exactly once and only after all
selected contexts have been processed (the trace is the processing events
followed by the single report), and the run result depends only on the
processing outcomes, not on the unmatched pattern. -/
theorem missing_filter_nonfatal (ordered : List Name) (pats : List ContextName)
    (ok : Name → Bool) (p : ContextName) (hp : p ∈ pats)
    (hzero : ∀ c ∈ ordered, matchesContextName p c = false) :
    p ∈ (workerFromPatterns ordered pats ok).missingFilters ∧
    (configure (workerFromPatterns ordered pats ok)).1.trace =
      ((ordered.filter (selectedByPatterns pats)).map
        (fun c => Event.processContext c (ok c)))
        ++ [Event.printMissingFilters (computeMissingFilters pats ordered)] ∧
    ((configure (workerFromPatterns ordered pats ok)).1.trace.filter
      isPrintMissingFilters).length = 1 ∧
    (configure (workerFromPatterns ordered pats ok)).2 =
      !(ordered.any (fun c => selectedByPatterns pats c && !ok c)) := by
  have hmem : p ∈ computeMissingFilters pats ordered := by
    simp only [computeMissingFilters, List.mem_filter]
    refine ⟨hp, ?_⟩
    simp only [Bool.not_eq_true', List.any_eq_false]
    intro c hc
    simp [hzero c hc]
  refine ⟨hmem, ?_, ?_, ?_⟩
  · simp [configure, configureLoop_eq, initConfigureState, workerFromPatterns]
  · simp [configure, configureLoop_eq, initConfigureState, workerFromPatterns,
      List.filter_append, List.filter_map, Function.comp, isPrintMissingFilters]
  · simp [configure, configureLoop_eq, initConfigureState, workerFromPatterns]

/-- C9: with more than one cproject, duplicate cproject filenames fail the
entire run with an error before any context is created, whereas two
cproject files in the same directory only produce a warning and the run
continues, creating all contexts. -/
theorem populateContexts_dup (cprojects : List CprojectEntry) (descriptors : List Name)
    (h : cprojects.length > 1) :
    (hasDup (cprojects.map (fun c => c.filename)) = true →
      (populateContexts cprojects descriptors).ok = false ∧
      (populateContexts cprojects descriptors).errorUniqueNames = true ∧
      (populateContexts cprojects descriptors).addedContexts = []) ∧
    (hasDup (cprojects.map (fun c => c.filename)) = false →
      hasDup (cprojects.map (fun c => c.dir)) = true →
      (populateContexts cprojects descriptors).ok = true ∧
      (populateContexts cprojects descriptors).warnSeparateDirs = true ∧
      (populateContexts cprojects descriptors).addedContexts = descriptors) := by
  constructor
  · intro hd; simp [populateContexts, h, hd]
  · intro hd1 hd2; simp [populateContexts, h, hd1, hd2]

/-- C10: the convert operation still emits a cbuild file and a .cprj file
for every processed context even when configuration failed — failed
contexts remain in the processed list and are emitted with an error flag —
and only the operation's overall result reports the configure failure. -/
theorem runConvert_generates_for_failed (w : Worker) (contextSetMode cbuildSetExists : Bool)
    (pats : List ContextName) :
    (∀ c ∈ (configure w).1.processedContexts,
      Event.generateCprj c ∈ (runConvert w contextSetMode cbuildSetExists pats).2 ∧
      Event.generateCbuild c ((configure w).1.failedContext.contains c) ∈
        (runConvert w contextSetMode cbuildSetExists pats).2) ∧
    (∀ c ∈ (configure w).1.failedContext, c ∈ (configure w).1.processedContexts) ∧
    (runConvert w contextSetMode cbuildSetExists pats).1 = (configure w).2 := by
  refine ⟨?_, ?_, ?_⟩
  · intro c hc
    constructor
    · simp only [runConvert, List.mem_append]
      right
      exact List.mem_map_of_mem _ hc
    · have hm : Event.generateCbuild c ((configure w).1.failedContext.contains c) ∈
        (configure w).1.processedContexts.map
          (fun c => Event.generateCbuild c ((configure w).1.failedContext.contains c)) :=
        List.mem_map_of_mem _ hc
      simp only [runConvert, generateYMLConfigurationFiles, List.mem_append]
      tauto
  · intro c hc
    simp only [configure, configureLoop_eq, initConfigureState, List.nil_append,
      List.mem_filter] at hc ⊢
    rw [Bool.and_eq_true] at hc
    exact ⟨hc.1, hc.2.1⟩
  · simp [runConvert, generateYMLConfigurationFiles]

theorem splitFirst_not_mem (sep : Char) (p : List Char) (h : sep ∉ p) :
    splitFirst sep p = (p, none) := by
  induction p with
  | nil => rfl
  | cons c cs ih =>
    have hc : ¬ c = sep := fun hc => h (hc ▸ List.mem_cons_self c cs)
    simp only [splitFirst, if_neg hc, ih (fun hm => h (List.mem_cons_of_mem c hm))]

theorem splitFirst_mem (sep : Char) (p rest : List Char) (h : sep ∉ p) :
    splitFirst sep (p ++ sep :: rest) = (p, some rest) := by
  induction p with
  | nil => simp [splitFirst]
  | cons c cs ih =>
    have hc : ¬ c = sep := fun hc => h (hc ▸ List.mem_cons_self c cs)
    simp only [List.cons_append, splitFirst, if_neg hc, List.append_eq,
      ih (fun hm => h (List.mem_cons_of_mem c hm))]

theorem validPart_spec (s : List Char) (h : validPart s = true) :
    s ≠ [] ∧ ∀ c ∈ s, c ≠ '.' ∧ c ≠ '+' := by
  rw [validPart, Bool.and_eq_true] at h
  obtain ⟨h1, h2⟩ := h
  constructor
  · intro he; subst he; simp at h1
  · intro c hc
    have h3 := List.all_eq_true.1 h2 c hc
    simp only [Bool.and_eq_true, Bool.not_eq_true', beq_eq_false_iff_ne] at h3
    exact ⟨h3.1.1, h3.1.2⟩

theorem parseIdent_formatIdent (i : ContextName) (h : validIdent i = true) :
    parseIdent (formatIdent i) = some i := by
  obtain ⟨proj, ob, ot⟩ := i
  cases ob with
  | none =>
    cases ot with
    | none =>
      have h0 := h
      simp only [validIdent, Bool.and_eq_true] at h0
      obtain ⟨⟨hp, _⟩, _⟩ := h0
      have hps := validPart_spec proj hp
      have hpd : '.' ∉ proj := fun hm => (hps.2 '.' hm).1 rfl
      have hpp : '+' ∉ proj := fun hm => (hps.2 '+' hm).2 rfl
      simp only [formatIdent, List.append_nil, parseIdent]
      rw [splitFirst_not_mem '+' proj hpp]
      simp only
      rw [splitFirst_not_mem '.' proj hpd]
      simp [h]
    | some t =>
      have h0 := h
      simp only [validIdent, Bool.and_eq_true] at h0
      obtain ⟨⟨hp, _⟩, ht⟩ := h0
      have hps := validPart_spec proj hp
      have hpd : '.' ∉ proj := fun hm => (hps.2 '.' hm).1 rfl
      have hpp : '+' ∉ proj := fun hm => (hps.2 '+' hm).2 rfl
      have hs : formatIdent ⟨proj, none, some t⟩ = proj ++ '+' :: t := by
        simp [formatIdent]
      rw [hs, parseIdent]
      rw [splitFirst_mem '+' proj t hpp]
      simp only
      rw [splitFirst_not_mem '.' proj hpd]
      simp [h]
  | some b =>
    have h0 := h
    simp only [validIdent, Bool.and_eq_true] at h0
    obtain ⟨⟨hp, hb⟩, ht⟩ := h0
    have hps := validPart_spec proj hp
    have hpd : '.' ∉ proj := fun hm => (hps.2 '.' hm).1 rfl
    have hpp : '+' ∉ proj := fun hm => (hps.2 '+' hm).2 rfl
    have hbs := validPart_spec b hb
    have hbp : '+' ∉ b := fun hm => (hbs.2 '+' hm).2 rfl
    have hnp : '+' ∉ proj ++ '.' :: b := by
      intro hm
      rcases List.mem_append.1 hm with hm1 | hm2
      · exact hpp hm1
      · rcases List.mem_cons.1 hm2 with hm3 | hm4
        · exact absurd hm3 (by decide)
        · exact hbp hm4
    cases ot with
    | none =>
      have hs : formatIdent ⟨proj, some b, none⟩ = proj ++ '.' :: b := by
        simp [formatIdent]
      rw [hs, parseIdent]
      rw [splitFirst_not_mem '+' _ hnp]
      simp only
      rw [splitFirst_mem '.' proj b hpd]
      simp [h]
    | some t =>
      have hs : formatIdent ⟨proj, some b, some t⟩ = (proj ++ '.' :: b) ++ '+' :: t := by
        simp [formatIdent]
      rw [hs, parseIdent]
      rw [splitFirst_mem '+' _ t hnp]
      simp only
      rw [splitFirst_mem '.' proj b hpd]
      simp [h]

/-- C8: for every well-formed identifier text s matching the grammar
name[.name][+name], parsing succeeds and formatting the parse result
reproduces s exactly: format(parse(s)) = s. -/
theorem format_parse_roundtrip (s : List Char) (h : wellFormed s) :
    ∃ i, parseIdent s = some i ∧ formatIdent i = s := by
  obtain ⟨i, hv, rfl⟩ := h
  exact ⟨i, parseIdent_formatIdent i hv, rfl⟩

/-- Witness for C1 at a concrete worker. -/
theorem configure_success_iff_witness :
    ((configure cw1).2 = true ↔
      ∀ c ∈ cw1.orderedContexts, cw1.selected c = true → cw1.processOk c = true) ∧
    (∀ c, c ∈ (configure cw1).1.failedContext ↔
      c ∈ cw1.orderedContexts ∧ cw1.selected c = true ∧ cw1.processOk c = false) :=
  configure_success_iff cw1

/-- Witness for C2 at a concrete worker. -/
theorem configure_failure_isolation_witness :
    (configure cw1).1.allContexts = cw1.orderedContexts ∧
    ∀ c ∈ (configure cw1).1.failedContext, c ∈ (configure cw1).1.processedContexts :=
  ⟨(configure_failure_isolation cw1).1, (configure_failure_isolation cw1).2.2.2⟩

/-- Witness for C3: an unknown load option aborts with an empty trace. -/
theorem setLoadPacksPolicy_exhaustive_witness :
    setLoadPacksPolicy "bogus" = none ∧
    (runWithLoadOption "bogus" cw1).1 = false ∧
    (runWithLoadOption "bogus" cw1).2 = [] := by
  have h := setLoadPacksPolicy_exhaustive.2.2.2.2 "bogus"
    (by decide) (by decide) (by decide) (by decide)
  exact ⟨h.1, (h.2 cw1).1, (h.2 cw1).2⟩

/-- Witness for C4: two concrete pattern lists that are permutations of
each other select the same processed list, a filter of the ordered list. -/
theorem selection_declaration_order_witness :
    (configure (workerFromPatterns [['A'], ['B']]
      [⟨['A'], none, none⟩, ⟨['B'], none, none⟩] (fun c => c == ['A']))).1.processedContexts =
      [['A'], ['B']].filter
        (selectedByPatterns [⟨['A'], none, none⟩, ⟨['B'], none, none⟩]) ∧
    (configure (workerFromPatterns [['A'], ['B']]
      [⟨['A'], none, none⟩, ⟨['B'], none, none⟩] (fun c => c == ['A']))).1.processedContexts =
    (configure (workerFromPatterns [['A'], ['B']]
      [⟨['B'], none, none⟩, ⟨['A'], none, none⟩] (fun c => c == ['A']))).1.processedContexts := by
  have h := selection_declaration_order [['A'], ['B']]
    [⟨['A'], none, none⟩, ⟨['B'], none, none⟩]
    [⟨['B'], none, none⟩, ⟨['A'], none, none⟩]
    (fun c => c == ['A'])
    (List.Perm.swap (⟨['B'], none, none⟩ : ContextName) ⟨['A'], none, none⟩ [])
  exact ⟨h.1, h.2.1⟩

/-- Witness for C5: update-index mode prints nothing and regenerates the
index for a concrete input with one context. -/
theorem runListLayers_update_idx_witness :
    (runListLayers li1).printed = [] ∧ (runListLayers li1).indexGenerated = true := by
  have h := runListLayers_update_idx li1 (by decide)
  exact ⟨(h.1 (by decide)).1, (h.1 (by decide)).2 (by decide)⟩

/-- Witness for C6 at a concrete context list with an absent context-set
file. -/
theorem contextset_missing_fallback_witness :
    (configureSelection [['A']] [] true false []).ok = true ∧
    (configureSelection [['A']] [] true false []).selectedContexts = [['A']] ∧
    (configureSelection [['A']] [] true false []).warnedMissingSet = true ∧
    Event.warnCbuildSetMissing ∈
      (generateYMLConfigurationFiles true [] false [['A']] [] []).1 := by
  have h := contextset_missing_fallback [['A']] [] false [] [] rfl
  exact ⟨h.1, h.2.1, h.2.2.1, h.2.2.2.2⟩

/-- Witness for C7: a concrete pattern matching no context is collected
and the run still succeeds. -/
theorem missing_filter_nonfatal_witness :
    (⟨['B'], none, none⟩ : ContextName) ∈
      (workerFromPatterns [['A']] [⟨['B'], none, none⟩] (fun _ => true)).missingFilters ∧
    (configure (workerFromPatterns [['A']] [⟨['B'], none, none⟩] (fun _ => true))).2 =
      !([['A']].any (fun c =>
        selectedByPatterns [⟨['B'], none, none⟩] c && !(fun _ => true) c)) := by
  have h := missing_filter_nonfatal [['A']] [⟨['B'], none, none⟩] (fun _ => true)
    ⟨['B'], none, none⟩ (by decide) (by decide)
  exact ⟨h.1, h.2.2.2⟩

/-- Witness for C8: the concrete identifier text App.Debug+BoardA
round-trips. -/
theorem format_parse_roundtrip_witness :
    wellFormed sampleText ∧
    ∃ i, parseIdent sampleText = some i ∧ formatIdent i = sampleText := by
  have hw : wellFormed sampleText :=
    ⟨⟨['A', 'p', 'p'], some ['D', 'e', 'b', 'u', 'g'],
      some ['B', 'o', 'a', 'r', 'd', 'A']⟩, by decide, by decide⟩
  exact ⟨hw, format_parse_roundtrip sampleText hw⟩

/-- Witness for C9: two cprojects with the same filename in different
directories abort with no context created. -/
theorem populateContexts_dup_witness :
    (populateContexts [⟨['d'], ['p']⟩, ⟨['e'], ['p']⟩] [['A']]).ok = false ∧
    (populateContexts [⟨['d'], ['p']⟩, ⟨['e'], ['p']⟩] [['A']]).addedContexts = [] := by
  have h := populateContexts_dup [⟨['d'], ['p']⟩, ⟨['e'], ['p']⟩] [['A']] (by decide)
  exact ⟨(h.1 (by decide)).1, (h.1 (by decide)).2.2⟩

/-- Witness for C10 at a concrete worker whose context B fails. -/
theorem runConvert_generates_for_failed_witness :
    (∀ c ∈ (configure cw1).1.failedContext, c ∈ (configure cw1).1.processedContexts) ∧
    (runConvert cw1 false false []).1 = (configure cw1).2 :=
  ⟨(runConvert_generates_for_failed cw1 false false []).2.1,
   (runConvert_generates_for_failed cw1 false false []).2.2⟩
